import Mathlib

/-!
# pocketoauth2

A shallow embedding of the Go packages `authenticator`, `authzserver`, `httputil`
and the vendored `callbacksrv`, followed by theorems about them.

Conventions of the embedding.

* A Go `error` is an `Option String`: `none` is `nil`, `some msg` is an error whose
  `Error()` text is `msg`.
* A Go call ends in an `Outcome`: it returns, panics, blocks forever, or the process
  exits (`log.Fatal`).
* A `chan struct{}` carries no data, so a channel is its capacity, the number of
  buffered elements and the closed flag; a nil channel is `none`.
* The remote API, the clock, the standard library URL parser and the browser callbacks
  are the environment `Env`; every theorem quantifies over it.
* `*Service` is passed by state: operations return the Service after the call.
-/

set_option autoImplicit false

namespace PocketOAuth2

/-! ## Go runtime -/

/-- A Go error value; `none` is nil. -/
abbrev GoError := Option String

/-- How a Go call ends. -/
inductive Outcome (α : Type) where
  /-- The call returns a value. -/
  | ret (a : α)
  /-- The goroutine panics with the given run-time message. -/
  | panic (msg : String)
  /-- The goroutine blocks forever (the runtime may abort a process in which no
  goroutine can run any more); the call never returns. -/
  | block
  /-- The process terminates through `log.Fatal` (`os.Exit`). -/
  | exit (code : Nat)
  deriving DecidableEq, Repr

/-- State of a non-nil Go channel whose elements carry no information. -/
structure Chan where
  cap : Nat
  len : Nat
  closed : Bool
  deriving DecidableEq, Repr

/-- The builtin `make(chan T, n)`. -/
def makeChan (n : Nat) : Chan := { cap := n, len := 0, closed := false }

/-- Result of one channel operation when no other goroutine is ready on the other side
of the channel: the operation completes on the buffer and the closed flag alone, or it
blocks, or it panics. -/
inductive ChanStep where
  | ok (c : Option Chan)
  | blocked
  | panicked (msg : String)
  deriving DecidableEq, Repr

/-- Statement `ch <- v`. A nil channel blocks forever, a closed one panics, a full
buffer blocks. -/
def chanSend : Option Chan → ChanStep
  | none => .blocked
  | some c =>
    if c.closed then .panicked "send on closed channel"
    else if c.len < c.cap then .ok (some { c with len := c.len + 1 })
    else .blocked

/-- Builtin `close(ch)`. -/
def chanClose : Option Chan → ChanStep
  | none => .panicked "close of nil channel"
  | some c =>
    if c.closed then .panicked "close of closed channel"
    else .ok (some { c with closed := true })

/-- Expression `<-ch`. A nil channel blocks forever; a buffered element is taken;
a closed drained channel yields the zero value at once; an open empty one blocks. -/
def chanRecv : Option Chan → ChanStep
  | none => .blocked
  | some c =>
    if 0 < c.len then .ok (some { c with len := c.len - 1 })
    else if c.closed then .ok (some c)
    else .blocked

/-! ## net/http data -/

/-- A `context.Context`, reduced to its deadline in nanoseconds (`none`: no deadline). -/
structure Context where
  deadline : Option Nat
  deriving DecidableEq, Repr

/-- Function `context.WithTimeout(parent, d)` called at time `now`: the earlier of the
parent deadline and `now + d`. -/
def WithTimeout (now : Nat) (parent : Context) (d : Nat) : Context :=
  match parent.deadline with
  | none => { deadline := some (now + d) }
  | some p => { deadline := some (min p (now + d)) }

/-- An `http.Header`, keys in canonical MIME form. -/
abbrev Header := List (String × List String)

/-- Method `Header.Set` for a key already in canonical form: replace the values. -/
def headerSet (h : Header) (key value : String) : Header :=
  (key, [value]) :: h.filter (fun kv => kv.1 != key)

/-- Method `Header.Get` for a key already in canonical form: first value or "". -/
def headerGet (h : Header) (key : String) : String :=
  match h.lookup key with
  | some (v :: _) => v
  | _ => ""

/-- Function `http.StatusText` of the standard library; "" for an unknown code. -/
def StatusText (code : Int) : String :=
  match code with
  | 100 => "Continue"
  | 101 => "Switching Protocols"
  | 102 => "Processing"
  | 103 => "Early Hints"
  | 200 => "OK"
  | 201 => "Created"
  | 202 => "Accepted"
  | 203 => "Non-Authoritative Information"
  | 204 => "No Content"
  | 205 => "Reset Content"
  | 206 => "Partial Content"
  | 207 => "Multi-Status"
  | 208 => "Already Reported"
  | 226 => "IM Used"
  | 300 => "Multiple Choices"
  | 301 => "Moved Permanently"
  | 302 => "Found"
  | 303 => "See Other"
  | 304 => "Not Modified"
  | 305 => "Use Proxy"
  | 307 => "Temporary Redirect"
  | 308 => "Permanent Redirect"
  | 400 => "Bad Request"
  | 401 => "Unauthorized"
  | 402 => "Payment Required"
  | 403 => "Forbidden"
  | 404 => "Not Found"
  | 405 => "Method Not Allowed"
  | 406 => "Not Acceptable"
  | 407 => "Proxy Authentication Required"
  | 408 => "Request Timeout"
  | 409 => "Conflict"
  | 410 => "Gone"
  | 411 => "Length Required"
  | 412 => "Precondition Failed"
  | 413 => "Request Entity Too Large"
  | 414 => "Request URI Too Long"
  | 415 => "Unsupported Media Type"
  | 416 => "Requested Range Not Satisfiable"
  | 417 => "Expectation Failed"
  | 418 => "I'm a teapot"
  | 421 => "Misdirected Request"
  | 422 => "Unprocessable Entity"
  | 423 => "Locked"
  | 424 => "Failed Dependency"
  | 425 => "Too Early"
  | 426 => "Upgrade Required"
  | 428 => "Precondition Required"
  | 429 => "Too Many Requests"
  | 431 => "Request Header Fields Too Large"
  | 451 => "Unavailable For Legal Reasons"
  | 500 => "Internal Server Error"
  | 501 => "Not Implemented"
  | 502 => "Bad Gateway"
  | 503 => "Service Unavailable"
  | 504 => "Gateway Timeout"
  | 505 => "HTTP Version Not Supported"
  | 506 => "Variant Also Negotiates"
  | 507 => "Insufficient Storage"
  | 508 => "Loop Detected"
  | 510 => "Not Extended"
  | 511 => "Network Authentication Required"
  | _ => ""

/-- Constant `http.StatusOK`. -/
def StatusOK : Int := 200

/-- Constant `http.MethodPost`. -/
def MethodPost : String := "POST"

/-! ## net/url: ParseQuery

Go strings are byte strings. A `Char` of the model stands for one byte; the bytes that
matter to the parser (`&`, `;`, `=`, `%`, `+`, hex digits) are ASCII. -/

/-- Function `ishex` of net/url. -/
def ishex (c : Char) : Bool :=
  ('0' ≤ c && c ≤ '9') || ('a' ≤ c && c ≤ 'f') || ('A' ≤ c && c ≤ 'F')

/-- Function `unhex` of net/url. -/
def unhex (c : Char) : Nat :=
  if '0' ≤ c && c ≤ '9' then c.toNat - '0'.toNat
  else if 'a' ≤ c && c ≤ 'f' then c.toNat - 'a'.toNat + 10
  else if 'A' ≤ c && c ≤ 'F' then c.toNat - 'A'.toNat + 10
  else 0

/-- Function `url.QueryUnescape`: `%XY` becomes the byte `XY`, `+` becomes a space.
The library validates every `%` in a first pass and decodes in a second; both passes
scan left to right, so the fused recursion reports the same (leftmost) bad escape. The
error text is that of `url.EscapeError` for printable bytes. -/
def QueryUnescape : List Char → Except String (List Char)
  | [] => .ok []
  | c :: rest =>
    if c = '%' then
      match rest with
      | a :: b :: rest2 =>
        if ishex a && ishex b then
          match QueryUnescape rest2 with
          | .ok t => .ok (Char.ofNat (unhex a * 16 + unhex b) :: t)
          | .error e => .error e
        else .error ("invalid URL escape \"" ++ String.mk (c :: a :: [b]) ++ "\"")
      | short => .error ("invalid URL escape \"" ++ String.mk (c :: short) ++ "\"")
    else if c = '+' then
      match QueryUnescape rest with
      | .ok t => .ok (' ' :: t)
      | .error e => .error e
    else
      match QueryUnescape rest with
      | .ok t => .ok (c :: t)
      | .error e => .error e

/-- Function `strings.Cut(s, sep)` for a one-byte separator, without the found flag:
the text before the first `sep` and the text after it (all of `s` and "" if absent). -/
def cut (sep : Char) : List Char → List Char × List Char
  | [] => ([], [])
  | c :: cs => if c = sep then ([], cs) else ((cut sep cs).1.cons c, (cut sep cs).2)

/-- The type `url.Values`, a map from key to the list of its values. -/
abbrev Values := List (String × List String)

/-- Statement `m[key] = append(m[key], value)`. -/
def valuesAdd : Values → String → String → Values
  | [], key, value => [(key, [value])]
  | (k, vs) :: rest, key, value =>
    if k = key then (k, vs ++ [value]) :: rest else (k, vs) :: valuesAdd rest key value

/-- Method `Values.Get`: the first value of the key, "" if there is none. -/
def valuesGet (m : Values) (key : String) : String :=
  match m.lookup key with
  | some (v :: _) => v
  | _ => ""

/-- One iteration of the loop of `parseQuery` on the segment `key` cut off at `&`. -/
def parseSegment (key : List Char) (m : Values) (err : GoError) : Values × GoError :=
  if ';' ∈ key then (m, some "invalid semicolon separator in query")
  else if key = [] then (m, err)
  else
    match QueryUnescape (cut '=' key).1 with
    | .error e1 => (m, if err = none then some e1 else err)
    | .ok k =>
      match QueryUnescape (cut '=' key).2 with
      | .error e1 => (m, if err = none then some e1 else err)
      | .ok v => (valuesAdd m (String.mk k) (String.mk v), err)

/-- The loop `for query != ""` of `parseQuery`. Every iteration removes at least one
byte from a non-empty `query`, so `fuel = len(query)` iterations always suffice. -/
def parseQueryLoop : Nat → List Char → Values → GoError → Values × GoError
  | 0, _, m, err => (m, err)
  | fuel + 1, query, m, err =>
    if query = [] then (m, err)
    else
      let r := parseSegment (cut '&' query).1 m err
      parseQueryLoop fuel (cut '&' query).2 r.1 r.2

/-- Function `url.ParseQuery` (Go 1.17 and later, where a raw `;` is an error). -/
def ParseQuery (query : String) : Values × GoError :=
  parseQueryLoop query.data.length query.data [] none

/-! ## Form encodings (the responses the remote API is expected to send) -/

/-- Bytes that may stand for themselves in an encoded key. -/
def plainKeyByte (c : Char) : Bool :=
  c != '&' && c != ';' && c != '=' && c != '%' && c != '+'

/-- Bytes that may stand for themselves in an encoded value. -/
def plainValueByte (c : Char) : Bool :=
  c != '&' && c != ';' && c != '%' && c != '+'

/-- `FormText plain d e`: the text `e` is a form encoding of the byte string `d`. Each
byte of `d` is written as itself when `plain` allows it, a space may be written `+`, and
any byte may be written `%XY` with two hex digits. -/
inductive FormText (plain : Char → Bool) : List Char → List Char → Prop where
  | nil : FormText plain [] []
  | lit (c : Char) {d e : List Char} :
      plain c = true → FormText plain d e → FormText plain (c :: d) (c :: e)
  | plus {d e : List Char} : FormText plain d e → FormText plain (' ' :: d) ('+' :: e)
  | pct (hi lo : Char) {d e : List Char} :
      ishex hi = true → ishex lo = true → FormText plain d e →
      FormText plain (Char.ofNat (unhex hi * 16 + unhex lo) :: d) ('%' :: hi :: lo :: e)

/-- `FormEncoding kvs body`: `body` is a well-formed form encoding of the key-value
pairs `kvs`, in this order: encoded `key=value` segments joined by `&`, with or without
a final `&`. -/
inductive FormEncoding : List (String × String) → List Char → Prop where
  | nil : FormEncoding [] []
  | single (k v : String) (ek ev : List Char) :
      FormText plainKeyByte k.data ek → FormText plainValueByte v.data ev →
      FormEncoding [(k, v)] (ek ++ ('=' :: ev))
  | cons (k v : String) (ek ev : List Char) (kvs : List (String × String))
      (rest : List Char) :
      FormText plainKeyByte k.data ek → FormText plainValueByte v.data ev →
      FormEncoding kvs rest →
      FormEncoding ((k, v) :: kvs) (ek ++ ('=' :: (ev ++ ('&' :: rest))))

/-- The value a form gives to a key: that of the first pair with this key, and the
empty text when no pair has it. -/
def formValue (kvs : List (String × String)) (key : String) : String :=
  (kvs.lookup key).getD ""

/-! ## Handlers: package authzserver and vendored package callbacksrv -/

/-- An `http.ResponseWriter`: the status line once written, and the body so far. -/
structure ResponseWriter where
  status : Option Int
  body : String
  deriving DecidableEq, Repr

/-- Method `WriteHeader`: the first status written wins. -/
def ResponseWriter.WriteHeader (w : ResponseWriter) (code : Int) : ResponseWriter :=
  match w.status with
  | none => { w with status := some code }
  | some _ => w

/-- Method `Write`: implies status 200 when none was written, then appends. -/
def ResponseWriter.Write (w : ResponseWriter) (text : String) : ResponseWriter :=
  { status := some (w.status.getD 200), body := w.body ++ text }

namespace authzserver

/-- State after one run of the handler. -/
structure HandlerResult where
  userAuthzChan : Option Chan
  w : ResponseWriter
  out : Outcome Unit
  deriving DecidableEq, Repr

/-- The handler returned by `requestTokenAuthz(userAuthzChan)`, run once on a request:
send, close, then write status 200 and the body. -/
def requestTokenAuthz (userAuthzChan : Option Chan) (w : ResponseWriter) : HandlerResult :=
  match chanSend userAuthzChan with
  | .blocked => { userAuthzChan := userAuthzChan, w := w, out := .block }
  | .panicked m => { userAuthzChan := userAuthzChan, w := w, out := .panic m }
  | .ok c1 =>
    match chanClose c1 with
    | .blocked => { userAuthzChan := c1, w := w, out := .block }
    | .panicked m => { userAuthzChan := c1, w := w, out := .panic m }
    | .ok c2 =>
      { userAuthzChan := c2
        w := (w.WriteHeader 200).Write "Authorization granted. Bye!"
        out := .ret () }

end authzserver

namespace callbacksrv

/-- State after one run of the `/callback` handler. -/
structure HandlerResult where
  notifyChan : Option Chan
  quitChan : Option Chan
  w : ResponseWriter
  out : Outcome Unit
  deriving DecidableEq, Repr

/-- The `/callback` handler registered by `Serve`, run once on a request: write the
response, send on `notifyChan`, close it, send `os.Interrupt` on `quitChan`. -/
def callbackHandler (notifyChan quitChan : Option Chan) (w : ResponseWriter) :
    HandlerResult :=
  let w1 := (w.WriteHeader 200).Write "Authorization Granted. Bye!"
  match chanSend notifyChan with
  | .blocked => { notifyChan := notifyChan, quitChan := quitChan, w := w1, out := .block }
  | .panicked m => { notifyChan := notifyChan, quitChan := quitChan, w := w1, out := .panic m }
  | .ok n1 =>
    match chanClose n1 with
    | .blocked => { notifyChan := n1, quitChan := quitChan, w := w1, out := .block }
    | .panicked m => { notifyChan := n1, quitChan := quitChan, w := w1, out := .panic m }
    | .ok n2 =>
      match chanSend quitChan with
      | .blocked => { notifyChan := n2, quitChan := quitChan, w := w1, out := .block }
      | .panicked m => { notifyChan := n2, quitChan := quitChan, w := w1, out := .panic m }
      | .ok q1 => { notifyChan := n2, quitChan := q1, w := w1, out := .ret () }

/-- How the listener's run goes. -/
inductive ListenerRun where
  /-- Method `ListenAndServe` fails at once (the port is taken). -/
  | listenError
  /-- Exactly `n` requests reach the `/callback` handler while the server is open
  (`n = 0`: none ever does); `closeErr` is the error of `server.Close()`. -/
  | requests (n : Nat) (closeErr : GoError)
  deriving DecidableEq, Repr

/-- The handler run on `n` requests, one after the other. A handler that panics is
recovered by the router (`gin.Default` installs the recovery middleware) and one that
blocks holds only its own goroutine, so the server goes on to the next request. -/
def serveRequests : Nat → Option Chan → Option Chan → Option Chan × Option Chan
  | 0, notifyChan, quitChan => (notifyChan, quitChan)
  | n + 1, notifyChan, quitChan =>
    let r := callbackHandler notifyChan quitChan { status := none, body := "" }
    serveRequests n r.notifyChan r.quitChan

/-- State after `Serve`. -/
structure ServeResult where
  notifyChan : Option Chan
  quitChan : Option Chan
  out : Outcome Unit
  deriving DecidableEq, Repr

/-- Function `Serve`. It is a blocking call: `ListenAndServe` returns only once the
goroutine waiting on `quitChan` has received and closed the server. -/
def Serve (run : ListenerRun) (notifyChan quitChan : Option Chan) : ServeResult :=
  match run with
  | .listenError => { notifyChan := notifyChan, quitChan := quitChan, out := .exit 1 }
  | .requests n closeErr =>
    let chans := serveRequests n notifyChan quitChan
    match chanRecv chans.2 with
    | .blocked => { notifyChan := chans.1, quitChan := chans.2, out := .block }
    | .panicked m => { notifyChan := chans.1, quitChan := chans.2, out := .panic m }
    | .ok q1 =>
      match closeErr with
      | some _ => { notifyChan := chans.1, quitChan := q1, out := .exit 1 }
      | none => { notifyChan := chans.1, quitChan := q1, out := .ret () }

end callbacksrv

/-! ## Package httputil -/

namespace httputil

/-- The fields of `http.Transport` that `BaseClient` sets. -/
structure Transport where
  MaxIdleConns : Nat
  MaxConnsPerHost : Nat
  MaxIdleConnsPerHost : Nat
  deriving DecidableEq, Repr

/-- An `http.Client`: timeout in nanoseconds and its transport. -/
structure Client where
  Timeout : Nat
  Transport : Transport
  deriving DecidableEq, Repr

/-- Function `BaseClient`, with `http.DefaultTransport` the library's own transport (the
type assertion on it then succeeds). -/
def BaseClient : Client :=
  { Timeout := 10 * 1000000000
    Transport := { MaxIdleConns := 100, MaxConnsPerHost := 100, MaxIdleConnsPerHost := 100 } }

end httputil

/-! ## Package authenticator: models.go -/

namespace authenticator

/-- Struct `requestTokenRequest`. -/
structure requestTokenRequest where
  ConsumerKey : String
  RedirectURI : String
  deriving DecidableEq, Repr

/-- Struct `accessTokenRequest`. -/
structure accessTokenRequest where
  ConsumerKey : String
  Code : String
  deriving DecidableEq, Repr

/-- Struct `accessTokenResponse`. -/
structure accessTokenResponse where
  Val : String
  Username : String
  deriving DecidableEq, Repr

/-- A request body: the `json.Marshal` image of one of the two request structs, kept
symbolic (marshalling a struct of strings cannot fail), or no body. -/
inductive Payload where
  | empty
  | requestToken (r : requestTokenRequest)
  | accessToken (r : accessTokenRequest)
  deriving DecidableEq, Repr

/-- An `*http.Request`. -/
structure Request where
  ctx : Context
  method : String
  url : String
  header : Header
  body : Payload
  deriving DecidableEq, Repr

/-- An `*http.Response`; `body` and `bodyErr` are what `ioutil.ReadAll(resp.Body)`
returns. -/
structure Response where
  StatusCode : Int
  header : Header
  body : String
  bodyErr : GoError
  deriving DecidableEq, Repr

/-- Everything outside the process. -/
structure Env where
  /-- Result of `time.Now()` in nanoseconds. -/
  now : Nat
  /-- Error of `url.Parse` inside `http.NewRequestWithContext` for a URL text. -/
  parseURL : String → GoError
  /-- Result of `httpCli.Do(req)` on a non-nil client: a transport error or a response. -/
  roundTrip : Request → Except String Response
  /-- What happens while `callbacksrv.Serve` listens. -/
  listener : callbacksrv.ListenerRun

/-- Observable actions of the authenticator. -/
inductive Event where
  /-- A request handed to `httpCli.Do`. -/
  | httpDo (req : Request)
  /-- Function `callbacksrv.Serve` called: a listener is started on port 8080. -/
  | serve
  /-- Text written to standard output. -/
  | print (text : String)
  deriving DecidableEq, Repr

/-! ## Package authenticator: authenticator.go -/

def authURLTemplate (requestToken redirectURI : String) : String :=
  "https://getpocket.com/auth/authorize?request_token=" ++ requestToken ++
    "&redirect_uri=" ++ redirectURI

def endpointAuthorize : String := "/oauth/authorize"

def endpointRequestToken : String := "/oauth/request"

def xErrorHeader : String := "X-Error"

/-- One minute, in nanoseconds. -/
def defaultAuthCtxTimeout : Nat := 60 * 1000000000

def ErrMissingConsumerKey : String := "missing consumer key"

def ErrMissingHost : String := "missing host"

def ErrMissingRedirectURI : String := "missing redirect URI"

/-- Struct `Service`; a nil pointer or nil channel field is `none`. -/
structure Service where
  httpCli : Option httputil.Client
  userAuthzChan : Option Chan
  host : String
  redirectURI : String
  consumerKey : String
  accessToken : String
  username : String
  deriving DecidableEq, Repr

/-- Function `New`: the returned pointer (`none` is nil) and the error. -/
def New (host consumerKey redirectURI : String) : Option Service × GoError :=
  if host = "" then (none, some ErrMissingHost)
  else if consumerKey = "" then (none, some ErrMissingConsumerKey)
  else if redirectURI = "" then (none, some ErrMissingRedirectURI)
  else
    (some
      { httpCli := some httputil.BaseClient
        userAuthzChan := none
        host := host
        consumerKey := consumerKey
        redirectURI := redirectURI
        accessToken := ""
        username := "" },
     none)

/-- Method `ClearCredentials`. -/
def ClearCredentials (s : Service) : Service :=
  { s with accessToken := "", username := "" }

/-- Function `http.NewRequestWithContext` for a valid method and a non-nil context:
it fails exactly when the URL does not parse. -/
def NewRequestWithContext (env : Env) (ctx : Context) (method url : String)
    (body : Payload) : Option Request × GoError :=
  match env.parseURL url with
  | some e => (none, some e)
  | none => (some { ctx := ctx, method := method, url := url, header := [], body := body }, none)

/-- What a call of `makeRequest` leaves behind. -/
structure MakeRequestResult where
  /-- The request after the call; its header is set through the pointer. -/
  req : Request
  /-- The requests handed to the client. -/
  events : List Event
  /-- The returned `(*http.Response, error)`, or the panic of a nil client. -/
  out : Outcome (Option Response × GoError)
  deriving DecidableEq, Repr

/-- Method `makeRequest`. -/
def makeRequest (env : Env) (s : Service) (_ctx : Context) (req : Request)
    (expectedStatusCode : Int) : MakeRequestResult :=
  let req1 := { req with header := headerSet req.header "Content-Type" "application/json; charset=UTF8" }
  match s.httpCli with
  | none => { req := req1, events := [], out := .panic "invalid memory address or nil pointer dereference" }
  | some _ =>
    match env.roundTrip req1 with
    | .error e =>
      { req := req1, events := [.httpDo req1], out := .ret (none, some ("could not make request: " ++ e)) }
    | .ok resp =>
      if resp.StatusCode ≠ expectedStatusCode then
        { req := req1, events := [.httpDo req1],
          out := .ret (none, some ("unexpected status code '" ++ StatusText resp.StatusCode ++
                  "': " ++ headerGet resp.header xErrorHeader)) }
      else { req := req1, events := [.httpDo req1], out := .ret (some resp, none) }

/-- Method `obtainRequestToken`: the requests made and the returned `(string, error)`.
The cases of a nil request or a nil response with a nil error cannot occur; they are
the nil dereference the Go code would run into. -/
def obtainRequestToken (env : Env) (s : Service) (ctx : Context) :
    List Event × Outcome (String × GoError) :=
  let reqTokenInput : requestTokenRequest :=
    { ConsumerKey := s.consumerKey, RedirectURI := s.redirectURI }
  match NewRequestWithContext env ctx MethodPost (s.host ++ endpointRequestToken)
      (.requestToken reqTokenInput) with
  | (_, some err) => ([], .ret ("", some ("could not create request: " ++ err)))
  | (none, none) => ([], .panic "invalid memory address or nil pointer dereference")
  | (some req, none) =>
    let r := makeRequest env s ctx req StatusOK
    match r.out with
    | .panic m => (r.events, .panic m)
    | .block => (r.events, .block)
    | .exit c => (r.events, .exit c)
    | .ret (_, some err) =>
      (r.events, .ret ("", some ("could not make request for request token: " ++ err)))
    | .ret (none, none) => (r.events, .panic "invalid memory address or nil pointer dereference")
    | .ret (some resp, none) =>
      match resp.bodyErr with
      | some err => (r.events, .ret ("", some ("could not read response body: " ++ err)))
      | none =>
        match ParseQuery resp.body with
        | (_, some err) => (r.events, .ret ("", some ("could not parse response body: " ++ err)))
        | (values, none) =>
          let requestToken := valuesGet values "code"
          if requestToken = "" then
            (r.events, .ret ("", some "missing request token code in api response"))
          else (r.events, .ret (requestToken, none))

/-- Method `obtainAccessToken`: the requests made and the returned
`(*accessTokenResponse, error)`. -/
def obtainAccessToken (env : Env) (s : Service) (ctx : Context) (requestToken : String) :
    List Event × Outcome (Option accessTokenResponse × GoError) :=
  let accessTokenReq : accessTokenRequest :=
    { ConsumerKey := s.consumerKey, Code := requestToken }
  match NewRequestWithContext env ctx MethodPost (s.host ++ endpointAuthorize)
      (.accessToken accessTokenReq) with
  | (_, some err) => ([], .ret (none, some ("could not create request: " ++ err)))
  | (none, none) => ([], .panic "invalid memory address or nil pointer dereference")
  | (some req, none) =>
    let r := makeRequest env s ctx req StatusOK
    match r.out with
    | .panic m => (r.events, .panic m)
    | .block => (r.events, .block)
    | .exit c => (r.events, .exit c)
    | .ret (_, some err) =>
      (r.events, .ret (none, some ("could not make request for access token: " ++ err)))
    | .ret (none, none) => (r.events, .panic "invalid memory address or nil pointer dereference")
    | .ret (some resp, none) =>
      match resp.bodyErr with
      | some err => (r.events, .ret (none, some ("could not read response body: " ++ err)))
      | none =>
        match ParseQuery resp.body with
        | (_, some err) => (r.events, .ret (none, some ("could not parse response body: " ++ err)))
        | (values, none) =>
          let accessToken := valuesGet values "access_token"
          let username := valuesGet values "username"
          if accessToken = "" then
            (r.events, .ret (none, some "empty access token in API response"))
          else (r.events, .ret (some { Val := accessToken, Username := username }, none))

/-- What a call of `Authenticate` leaves behind. -/
structure AuthResult where
  /-- Requests made, listeners started and text printed, in order. -/
  events : List Event
  /-- The Service after the call. -/
  svc : Service
  /-- The returned `(string, string, error)`, if the call returns. -/
  out : Outcome (String × String × GoError)
  deriving DecidableEq, Repr

/-- Method `Authenticate`. The cache check reads both fields. Past it, the call to
`callbacksrv.Serve` is an ordinary (blocking) call on two fresh channels, and the wait
that follows is `<-s.userAuthzChan`, on the field of the Service, not on the local
channel handed to `Serve`. The context `authzCtx` reaches the two HTTP requests only.
The deferred `cancel` has no effect on the result. -/
def Authenticate (env : Env) (s : Service) (ctx : Context) : AuthResult :=
  if s.accessToken ≠ "" ∧ s.username ≠ "" then
    { events := [], svc := s, out := .ret (s.accessToken, s.username, none) }
  else
    let authzCtx := WithTimeout env.now ctx defaultAuthCtxTimeout
    match obtainRequestToken env s authzCtx with
    | (ev, .panic m) => { events := ev, svc := s, out := .panic m }
    | (ev, .block) => { events := ev, svc := s, out := .block }
    | (ev, .exit c) => { events := ev, svc := s, out := .exit c }
    | (ev, .ret (_, some err)) => { events := ev, svc := s, out := .ret ("", "", some err) }
    | (ev, .ret (requestToken, none)) =>
      let authzURL := authURLTemplate requestToken s.redirectURI
      let userAuthzChan := makeChan 1
      let doneChan := makeChan 1
      match (callbacksrv.Serve env.listener (some userAuthzChan) (some doneChan)).out with
      | .panic m => { events := ev ++ [.serve], svc := s, out := .panic m }
      | .block => { events := ev ++ [.serve], svc := s, out := .block }
      | .exit c => { events := ev ++ [.serve], svc := s, out := .exit c }
      | .ret () =>
        let ev1 := ev ++ [.serve, .print ("\n\nAwaiting user authorization:\n\t" ++ authzURL ++ "\n\n")]
        match chanRecv s.userAuthzChan with
        | .blocked => { events := ev1, svc := s, out := .block }
        | .panicked m => { events := ev1, svc := s, out := .panic m }
        | .ok ch =>
          let s1 := { s with userAuthzChan := ch }
          let ev2 := ev1 ++ [.print "Authorization granted!\n\n"]
          match obtainAccessToken env s1 authzCtx requestToken with
          | (ev3, .panic m) => { events := ev2 ++ ev3, svc := s1, out := .panic m }
          | (ev3, .block) => { events := ev2 ++ ev3, svc := s1, out := .block }
          | (ev3, .exit c) => { events := ev2 ++ ev3, svc := s1, out := .exit c }
          | (ev3, .ret (_, some err)) =>
            { events := ev2 ++ ev3, svc := s1, out := .ret ("", "", some err) }
          | (ev3, .ret (none, none)) =>
            { events := ev2 ++ ev3, svc := s1,
              out := .panic "invalid memory address or nil pointer dereference" }
          | (ev3, .ret (some accessToken, none)) =>
            { events := ev2 ++ ev3
              svc := { s1 with accessToken := accessToken.Val, username := accessToken.Username }
              out := .ret (accessToken.Val, accessToken.Username, none) }

/-- The text `part` occurs in the text `msg`. -/
def Contains (msg part : String) : Prop :=
  ∃ pre post : String, msg = pre ++ part ++ post

/-- The request that `obtainRequestToken` hands to the client. -/
def requestTokenCall (s : Service) (ctx : Context) : Request :=
  { ctx := ctx
    method := MethodPost
    url := s.host ++ endpointRequestToken
    header := [("Content-Type", ["application/json; charset=UTF8"])]
    body := .requestToken { ConsumerKey := s.consumerKey, RedirectURI := s.redirectURI } }

/-- The request that `obtainAccessToken` hands to the client. -/
def accessTokenCall (s : Service) (ctx : Context) (requestToken : String) : Request :=
  { ctx := ctx
    method := MethodPost
    url := s.host ++ endpointAuthorize
    header := [("Content-Type", ["application/json; charset=UTF8"])]
    body := .accessToken { ConsumerKey := s.consumerKey, Code := requestToken } }

/-- The credentials are cached: the guard of the fast path of `Authenticate`. -/
def Cached (s : Service) : Prop := s.accessToken ≠ "" ∧ s.username ≠ ""

instance (s : Service) : Decidable (Cached s) := by
  unfold Cached
  exact inferInstance

/-- Service states reachable from a successful `New` by calls of `Authenticate` (in any
environment, with any context) and of `ClearCredentials`. -/
inductive Reachable : Service → Prop where
  | new (host consumerKey redirectURI : String) (s : Service) :
      New host consumerKey redirectURI = (some s, none) → Reachable s
  | authenticate (env : Env) (ctx : Context) (s : Service) :
      Reachable s → Reachable (Authenticate env s ctx).svc
  | clear (s : Service) : Reachable s → Reachable (ClearCredentials s)

/-! ## Example inputs -/

/-- A remote API that answers the request-token call with `code=abc` and the exchange
call with the given body, both with status 200. -/
def remoteAnswering (host exchangeBody : String) (r : Request) : Except String Response :=
  if r.url = host ++ endpointRequestToken then
    .ok { StatusCode := 200, header := [], body := "code=abc", bodyErr := none }
  else .ok { StatusCode := 200, header := [], body := exchangeBody, bodyErr := none }

/-- An environment in which the remote API works and the user approves once. -/
def approvingEnv (exchangeBody : String) : Env :=
  { now := 0
    parseURL := fun _ => none
    roundTrip := remoteAnswering "https://getpocket.com/v3" exchangeBody
    listener := .requests 1 none }

/-- An environment in which the remote API works and no callback ever arrives. -/
def silentEnv : Env :=
  { now := 0
    parseURL := fun _ => none
    roundTrip := remoteAnswering "https://getpocket.com/v3"
      "access_token=5678defg&username=pocketuser"
    listener := .requests 0 none }

/-- An environment whose remote API answers every call with the given response. -/
def fixedEnv (resp : Response) : Env :=
  { now := 0
    parseURL := fun _ => none
    roundTrip := fun _ => .ok resp
    listener := .requests 1 none }

/-- The Service that `New` builds for the Pocket API. -/
def pocketService : Service :=
  { httpCli := some httputil.BaseClient
    userAuthzChan := none
    host := "https://getpocket.com/v3"
    redirectURI := "http://localhost:8080/callback"
    consumerKey := "consumerKey"
    accessToken := ""
    username := "" }

/-- The Pocket Service with credentials in its cache. -/
def authenticatedService : Service :=
  { pocketService with accessToken := "5678defg", username := "pocketuser" }

/-- A Service built inside the package whose `userAuthzChan` field holds a channel on
which a notification was sent and which was then closed. -/
def notifiedService : Service :=
  { pocketService with userAuthzChan := some { cap := 1, len := 1, closed := true } }

/-- A response to the request-token call: a code, then a field written with `+` and a
percent escape. -/
def codeResponse : Response :=
  { StatusCode := 200, header := [], body := "code=dcba4321&state=a+b%21", bodyErr := none }

/-- A response to the exchange call with access token and username. -/
def tokenResponse : Response :=
  { StatusCode := 200, header := [], body := "access_token=5678defg&username=pocket%40user",
    bodyErr := none }

/-- A response of the remote API that rejects the consumer key. -/
def rejectedResponse : Response :=
  { StatusCode := 403, header := [("X-Error", ["Invalid consumer key."])], body := "",
    bodyErr := none }

/-- A request built by `http.NewRequest` for a GET without body. -/
def probeRequest : Request :=
  { ctx := { deadline := none }, method := "GET", url := "http://127.0.0.1:8081",
    header := [], body := .empty }

/-- A response writer on which nothing was written yet. -/
def freshWriter : ResponseWriter := { status := none, body := "" }

/-- A context without deadline, as `context.Background()`. -/
def background : Context := { deadline := none }

end authenticator

/-! ## Theorems -/

namespace authenticator

/-- C4: `New` reports the first missing mandatory argument, in the order host, consumer
key, redirect URI, each with its own sentinel error and a nil Service; with all three
present it returns a nil error and a Service that carries the three arguments, a
non-nil HTTP client and empty access token and username. -/
theorem New_checks_arguments (host consumerKey redirectURI : String) :
    (host = "" → New host consumerKey redirectURI = (none, some ErrMissingHost)) ∧
    (host ≠ "" → consumerKey = "" →
      New host consumerKey redirectURI = (none, some ErrMissingConsumerKey)) ∧
    (host ≠ "" → consumerKey ≠ "" → redirectURI = "" →
      New host consumerKey redirectURI = (none, some ErrMissingRedirectURI)) ∧
    (host ≠ "" → consumerKey ≠ "" → redirectURI ≠ "" →
      ∃ s : Service, New host consumerKey redirectURI = (some s, none) ∧
        s.host = host ∧ s.consumerKey = consumerKey ∧ s.redirectURI = redirectURI ∧
        s.httpCli ≠ none ∧ s.accessToken = "" ∧ s.username = "") ∧
    ErrMissingHost ≠ ErrMissingConsumerKey ∧ ErrMissingHost ≠ ErrMissingRedirectURI ∧
    ErrMissingConsumerKey ≠ ErrMissingRedirectURI := by
  refine ⟨?_, ?_, ?_, ?_, by decide, by decide, by decide⟩
  · intro h
    simp [New, h]
  · intro h1 h2
    simp [New, h1, h2]
  · intro h1 h2 h3
    simp [New, h1, h2, h3]
  · intro h1 h2 h3
    refine ⟨{ httpCli := some httputil.BaseClient, userAuthzChan := none, host := host,
              redirectURI := redirectURI, consumerKey := consumerKey, accessToken := "",
              username := "" }, ?_, rfl, rfl, rfl, ?_, rfl, rfl⟩
    · simp [New, h1, h2, h3]
    · simp

/-- C7: when the client is non-nil and the round trip of the request (with its
Content-Type set) yields a response, `makeRequest` leaves the request with Content-Type
"application/json; charset=UTF8" and otherwise as it was, hands exactly that request to
the client, returns the response itself with a nil error if and only if its status code
is the expected one, and in the other case returns a nil response and the error
"unexpected status code (status text): (X-Error value)", which contains both the
status text of the received code and the X-Error header value (the empty text when the
header is absent). -/
theorem makeRequest_status_contract (env : Env) (s : Service) (ctx : Context)
    (req : Request) (expectedStatusCode : Int) (resp : Response)
    (hcli : s.httpCli ≠ none)
    (hdo : env.roundTrip
      { req with header := headerSet req.header "Content-Type" "application/json; charset=UTF8" }
      = .ok resp) :
    headerGet (makeRequest env s ctx req expectedStatusCode).req.header "Content-Type"
        = "application/json; charset=UTF8" ∧
    (makeRequest env s ctx req expectedStatusCode).req =
      { req with header := headerSet req.header "Content-Type" "application/json; charset=UTF8" } ∧
    (makeRequest env s ctx req expectedStatusCode).events =
      [.httpDo (makeRequest env s ctx req expectedStatusCode).req] ∧
    ((makeRequest env s ctx req expectedStatusCode).out = .ret (some resp, none)
      ↔ resp.StatusCode = expectedStatusCode) ∧
    (resp.StatusCode ≠ expectedStatusCode →
      ∃ msg : String,
        (makeRequest env s ctx req expectedStatusCode).out = .ret (none, some msg) ∧
        msg = "unexpected status code '" ++ StatusText resp.StatusCode ++ "': " ++
          headerGet resp.header xErrorHeader ∧
        Contains msg (StatusText resp.StatusCode) ∧
        Contains msg (headerGet resp.header xErrorHeader)) ∧
    (resp.header.lookup xErrorHeader = none → headerGet resp.header xErrorHeader = "") := by
  obtain ⟨cli, hcli⟩ := Option.ne_none_iff_exists'.mp hcli
  have hget : headerGet (headerSet req.header "Content-Type" "application/json; charset=UTF8")
      "Content-Type" = "application/json; charset=UTF8" := by
    simp [headerGet, headerSet, List.lookup]
  by_cases hst : resp.StatusCode = expectedStatusCode
  · refine ⟨?_, ?_, ?_, ?_, ?_, ?_⟩
    · simpa [makeRequest, hcli, hdo, hst] using hget
    · simp [makeRequest, hcli, hdo, hst]
    · simp [makeRequest, hcli, hdo, hst]
    · simp [makeRequest, hcli, hdo, hst]
    · intro hne
      exact absurd hst hne
    · intro hnone
      simp [headerGet, hnone]
  · refine ⟨?_, ?_, ?_, ?_, ?_, ?_⟩
    · simpa [makeRequest, hcli, hdo, hst] using hget
    · simp [makeRequest, hcli, hdo, hst]
    · simp [makeRequest, hcli, hdo, hst]
    · simp [makeRequest, hcli, hdo, hst]
    · intro _
      refine ⟨_, by simp [makeRequest, hcli, hdo, hst], rfl, ?_, ?_⟩
      · exact ⟨"unexpected status code '", "': " ++ headerGet resp.header xErrorHeader,
          by simp [String.append_assoc]⟩
      · exact ⟨"unexpected status code '" ++ StatusText resp.StatusCode ++ "': ", "",
          by simp [String.append_assoc]⟩
    · intro hnone
      simp [headerGet, hnone]

/-- C7 at a concrete input: a 403 response with an X-Error header, expected status 200. -/
theorem makeRequest_status_contract_witness :
    pocketService.httpCli ≠ none ∧
    (∃ msg : String,
      (makeRequest (fixedEnv rejectedResponse) pocketService background probeRequest 200).out
        = .ret (none, some msg) ∧
      msg = "unexpected status code '" ++ StatusText rejectedResponse.StatusCode ++ "': " ++
        headerGet rejectedResponse.header xErrorHeader ∧
      Contains msg (StatusText rejectedResponse.StatusCode) ∧
      Contains msg (headerGet rejectedResponse.header xErrorHeader)) :=
  ⟨by decide,
   (makeRequest_status_contract (fixedEnv rejectedResponse) pocketService background
     probeRequest 200 rejectedResponse (by decide) rfl).2.2.2.2.1 (by decide)⟩

/-! ### Facts about the token calls and `Authenticate` -/

theorem obtainAccessToken_val_ne (env : Env) (s : Service) (ctx : Context) (rt : String)
    (r : accessTokenResponse)
    (h : (obtainAccessToken env s ctx rt).2 = .ret (some r, none)) : r.Val ≠ "" := by
  unfold obtainAccessToken at h
  simp only at h
  repeat' split at h
  all_goals simp at h
  rw [← h]
  assumption

theorem obtainRequestToken_token_ne (env : Env) (s : Service) (ctx : Context) (rt : String)
    (h : (obtainRequestToken env s ctx).2 = .ret (rt, none)) : rt ≠ "" := by
  unfold obtainRequestToken at h
  simp only at h
  repeat' split at h
  all_goals simp at h
  rw [← h]
  assumption

theorem Authenticate_cached (env : Env) (s : Service) (ctx : Context) (h : Cached s) :
    Authenticate env s ctx =
      { events := [], svc := s, out := .ret (s.accessToken, s.username, none) } := by
  unfold Cached at h
  unfold Authenticate
  rw [if_pos h]

theorem Authenticate_error (env : Env) (s : Service) (ctx : Context) (a u e : String) :
    (Authenticate env s ctx).out = .ret (a, u, some e) →
    a = "" ∧ u = "" ∧ (Authenticate env s ctx).svc.accessToken = s.accessToken ∧
      (Authenticate env s ctx).svc.username = s.username := by
  unfold Authenticate
  simp only
  repeat' split
  all_goals intro h
  all_goals simp at h
  all_goals obtain ⟨h1, h2, -⟩ := h
  all_goals subst h1 h2
  all_goals simp

theorem Authenticate_success (env : Env) (s : Service) (ctx : Context) (a u : String) :
    (Authenticate env s ctx).out = .ret (a, u, none) →
    a ≠ "" ∧ (Authenticate env s ctx).svc.accessToken = a ∧
      (Authenticate env s ctx).svc.username = u := by
  unfold Authenticate
  simp only
  repeat' split
  all_goals intro h
  all_goals simp at h
  · obtain ⟨h1, h2⟩ := h
    subst h1 h2
    simp_all
  · rename_i hq
    have hne := obtainAccessToken_val_ne _ _ _ _ _ (congrArg Prod.snd hq)
    obtain ⟨h1, h2⟩ := h
    subst h1 h2
    simp [hne]

/-- Whatever the outcome, `Authenticate` keeps the implication "username stored implies
access token stored". -/
theorem Authenticate_keeps_invariant (env : Env) (s : Service) (ctx : Context)
    (hinv : s.username ≠ "" → s.accessToken ≠ "") :
    (Authenticate env s ctx).svc.username ≠ "" →
      (Authenticate env s ctx).svc.accessToken ≠ "" := by
  unfold Authenticate
  simp only
  repeat' split
  all_goals try exact hinv
  rename_i hq
  intro _
  exact obtainAccessToken_val_ne _ _ _ _ _ (congrArg Prod.snd hq)

theorem Reachable_invariant (s : Service) (h : Reachable s) :
    s.username ≠ "" → s.accessToken ≠ "" := by
  induction h with
  | new host consumerKey redirectURI s hnew =>
    unfold New at hnew
    repeat' split at hnew
    all_goals simp at hnew
    subst hnew
    simp
  | authenticate env ctx s _ ih => exact Authenticate_keeps_invariant env s ctx ih
  | clear s _ _ => simp [ClearCredentials]


theorem obtainRequestToken_events (env : Env) (s : Service) (ctx : Context)
    (hcli : s.httpCli ≠ none) (hurl : env.parseURL (s.host ++ endpointRequestToken) = none) :
    (obtainRequestToken env s ctx).1 = [.httpDo (requestTokenCall s ctx)] := by
  obtain ⟨cli, hcli⟩ := Option.ne_none_iff_exists'.mp hcli
  unfold obtainRequestToken
  simp only [NewRequestWithContext, hurl, makeRequest, hcli]
  repeat' split
  all_goals simp_all [requestTokenCall, headerSet]

theorem obtainRequestToken_ret_pre (env : Env) (s : Service) (ctx : Context)
    (rt : String) (h : (obtainRequestToken env s ctx).2 = .ret (rt, none)) :
    s.httpCli ≠ none ∧ env.parseURL (s.host ++ endpointRequestToken) = none := by
  constructor
  · intro hc
    cases hp : env.parseURL (s.host ++ endpointRequestToken) <;>
      simp [obtainRequestToken, NewRequestWithContext, makeRequest, hp, hc] at h
  · cases hp : env.parseURL (s.host ++ endpointRequestToken) with
    | none => rfl
    | some e => simp [obtainRequestToken, NewRequestWithContext, hp] at h

theorem obtainAccessToken_events (env : Env) (s : Service) (ctx : Context) (rt : String)
    (hcli : s.httpCli ≠ none) (hurl : env.parseURL (s.host ++ endpointAuthorize) = none) :
    (obtainAccessToken env s ctx rt).1 = [.httpDo (accessTokenCall s ctx rt)] := by
  obtain ⟨cli, hcli⟩ := Option.ne_none_iff_exists'.mp hcli
  unfold obtainAccessToken
  simp only [NewRequestWithContext, hurl, makeRequest, hcli]
  repeat' split
  all_goals simp_all [accessTokenCall, headerSet]

theorem obtainAccessToken_ret_pre (env : Env) (s : Service) (ctx : Context)
    (rt : String) (r : accessTokenResponse)
    (h : (obtainAccessToken env s ctx rt).2 = .ret (some r, none)) :
    s.httpCli ≠ none ∧ env.parseURL (s.host ++ endpointAuthorize) = none := by
  constructor
  · intro hc
    cases hp : env.parseURL (s.host ++ endpointAuthorize) <;>
      simp [obtainAccessToken, NewRequestWithContext, makeRequest, hp, hc] at h
  · cases hp : env.parseURL (s.host ++ endpointAuthorize) with
    | none => rfl
    | some e => simp [obtainAccessToken, NewRequestWithContext, hp] at h

theorem obtainRequestToken_returns_or_panics (env : Env) (s : Service) (ctx : Context) :
    (obtainRequestToken env s ctx).2 ≠ .block ∧
      ∀ c : Nat, (obtainRequestToken env s ctx).2 ≠ .exit c := by
  unfold obtainRequestToken
  simp only [makeRequest]
  repeat' split
  all_goals simp_all

/-- A call that goes past the cache check and can build its first request hands the
request-token request to the client before anything else. -/
theorem obtainRequestToken_ret_events (env : Env) (s : Service) (ctx : Context)
    (rt : String) (h : (obtainRequestToken env s ctx).2 = .ret (rt, none)) :
    (obtainRequestToken env s ctx).1 = [.httpDo (requestTokenCall s ctx)] :=
  obtainRequestToken_events env s ctx (obtainRequestToken_ret_pre env s ctx rt h).1
    (obtainRequestToken_ret_pre env s ctx rt h).2

theorem obtainAccessToken_ret_events (env : Env) (s : Service) (ctx : Context)
    (rt : String) (r : accessTokenResponse)
    (h : (obtainAccessToken env s ctx rt).2 = .ret (some r, none)) :
    (obtainAccessToken env s ctx rt).1 = [.httpDo (accessTokenCall s ctx rt)] :=
  obtainAccessToken_events env s ctx rt (obtainAccessToken_ret_pre env s ctx rt r h).1
    (obtainAccessToken_ret_pre env s ctx rt r h).2

theorem Authenticate_first_event (env : Env) (s : Service) (ctx : Context)
    (hcache : ¬ Cached s) (hcli : s.httpCli ≠ none)
    (hurl : env.parseURL (s.host ++ endpointRequestToken) = none) :
    (Authenticate env s ctx).events.head? =
      some (.httpDo (requestTokenCall s (WithTimeout env.now ctx defaultAuthCtxTimeout))) := by
  have hev := obtainRequestToken_events env s (WithTimeout env.now ctx defaultAuthCtxTimeout)
    hcli hurl
  unfold Cached at hcache
  unfold Authenticate
  rw [if_neg hcache]
  simp only
  repeat' split
  all_goals simp_all

/-- A call that goes past the cache check and returns a nil error has run the whole
flow: request-token call, listener, wait, exchange call. -/
theorem Authenticate_full_flow (env : Env) (s : Service) (ctx : Context) (a u : String)
    (hcache : ¬ Cached s) (h : (Authenticate env s ctx).out = .ret (a, u, none)) :
    ∃ rt : String, (Authenticate env s ctx).events =
      [.httpDo (requestTokenCall s (WithTimeout env.now ctx defaultAuthCtxTimeout)),
       .serve,
       .print ("\n\nAwaiting user authorization:\n\t" ++ authURLTemplate rt s.redirectURI ++ "\n\n"),
       .print "Authorization granted!\n\n",
       .httpDo (accessTokenCall s (WithTimeout env.now ctx defaultAuthCtxTimeout) rt)] := by
  unfold Cached at hcache
  unfold Authenticate at h ⊢
  rw [if_neg hcache] at h ⊢
  simp only at h ⊢
  repeat' split at h
  all_goals simp at h
  rename_i ev rt hq1 _ _ _ ch hch _ ev3 r hq2
  have h1 := obtainRequestToken_ret_events env s _ rt (congrArg Prod.snd hq1)
  have h2 := obtainAccessToken_ret_events env _ _ rt r (congrArg Prod.snd hq2)
  rw [hq1] at h1
  rw [hq2] at h2
  simp only at h1 h2
  subst h1 h2
  exact ⟨rt, rfl⟩


/-! ### Claims about the cache, failure and the invariant -/

/-- C1 (as amended): once `Authenticate` has returned a nil error with access token `A`
and a non-empty username `U`, every later call (no `ClearCredentials` in between), in
any environment, makes no request, starts no listener, prints nothing, returns
`(A, U, nil)` and leaves the Service as it was. -/
theorem Authenticate_repeat_is_cached (env : Env) (s : Service) (ctx : Context)
    (A U : String) (h : (Authenticate env s ctx).out = .ret (A, U, none)) (hU : U ≠ "")
    (env2 : Env) (ctx2 : Context) :
    Authenticate env2 (Authenticate env s ctx).svc ctx2 =
      { events := [], svc := (Authenticate env s ctx).svc, out := .ret (A, U, none) } := by
  obtain ⟨hA, hsa, hsu⟩ := Authenticate_success env s ctx A U h
  have hc : Cached (Authenticate env s ctx).svc := by
    unfold Cached
    rw [hsa, hsu]
    exact ⟨hA, hU⟩
  rw [Authenticate_cached env2 _ ctx2 hc, hsa, hsu]

/-- C1 (as amended) at a concrete input: a full flow that stores token and username,
then a second call in an environment where no callback would ever arrive. -/
theorem Authenticate_repeat_is_cached_witness :
    (Authenticate (approvingEnv "access_token=5678defg&username=pocketuser")
        notifiedService background).out = .ret ("5678defg", "pocketuser", none) ∧
    Authenticate silentEnv
        (Authenticate (approvingEnv "access_token=5678defg&username=pocketuser")
          notifiedService background).svc background =
      { events := []
        svc := (Authenticate (approvingEnv "access_token=5678defg&username=pocketuser")
          notifiedService background).svc
        out := .ret ("5678defg", "pocketuser", none) } :=
  ⟨by decide,
   Authenticate_repeat_is_cached (approvingEnv "access_token=5678defg&username=pocketuser")
     notifiedService background "5678defg" "pocketuser" (by decide) (by decide)
     silentEnv background⟩

/-- C1 (counterexample): the remote API omits the username. The first call succeeds
with `("5678defg", "")`; the next call, with no `ClearCredentials` in between, does not
answer from the cache but hands a new request-token request to the client and starts a
listener. -/
theorem Authenticate_empty_username_not_cached :
    (Authenticate (approvingEnv "access_token=5678defg") notifiedService background).out
      = .ret ("5678defg", "", none) ∧
    (Authenticate (approvingEnv "access_token=5678defg")
        (Authenticate (approvingEnv "access_token=5678defg") notifiedService background).svc
        background).events.head?
      = some (.httpDo (requestTokenCall notifiedService
          (WithTimeout 0 background defaultAuthCtxTimeout))) ∧
    Event.serve ∈ (Authenticate (approvingEnv "access_token=5678defg")
        (Authenticate (approvingEnv "access_token=5678defg") notifiedService background).svc
        background).events := by
  decide

/-- C2 (what the code does): when the credentials are not cached, the request-token
call succeeds and no request ever reaches the callback listener, `Authenticate` never
returns, whatever deadline the caller's context carries: it stays blocked inside
`callbacksrv.Serve`. No timeout error is returned; the Service is untouched. -/
theorem Authenticate_blocks_without_callback (env : Env) (s : Service) (ctx : Context)
    (closeErr : GoError) (rt : String) (hcache : ¬ Cached s)
    (hsilent : env.listener = .requests 0 closeErr)
    (hreq : (obtainRequestToken env s (WithTimeout env.now ctx defaultAuthCtxTimeout)).2
      = .ret (rt, none)) :
    (Authenticate env s ctx).out = .block ∧ (Authenticate env s ctx).svc = s := by
  unfold Cached at hcache
  unfold Authenticate
  rw [if_neg hcache]
  simp only
  generalize obtainRequestToken env s (WithTimeout env.now ctx defaultAuthCtxTimeout) = r
    at hreq ⊢
  obtain ⟨ev, o⟩ := r
  simp only at hreq
  subst hreq
  simp [hsilent, callbacksrv.Serve, callbacksrv.serveRequests, chanRecv, makeChan]

/-- Every error that `Authenticate` returns is the error of one of its two token calls;
the wait between them produces none. -/
theorem Authenticate_error_source (env : Env) (s : Service) (ctx : Context)
    (a u e : String) :
    (Authenticate env s ctx).out = .ret (a, u, some e) →
    (∃ t : String,
      (obtainRequestToken env s (WithTimeout env.now ctx defaultAuthCtxTimeout)).2 =
        .ret (t, some e)) ∨
    (∃ (ch : Option Chan) (rt : String) (r : Option accessTokenResponse),
      (obtainAccessToken env { s with userAuthzChan := ch }
        (WithTimeout env.now ctx defaultAuthCtxTimeout) rt).2 = .ret (r, some e)) := by
  unfold Authenticate
  simp only
  repeat' split
  all_goals intro h
  all_goals simp at h
  · rename_i hq
    left
    exact ⟨_, by rw [hq, ← h.2.2]⟩
  · rename_i hq
    right
    exact ⟨_, _, _, by rw [hq, ← h.2.2]⟩

/-- C2 at a concrete input: the Service that `New` builds, a working remote API, no
callback, and a caller deadline of one nanosecond. -/
theorem Authenticate_blocks_without_callback_witness :
    ¬ Cached pocketService ∧
    (Authenticate silentEnv pocketService { deadline := some 1 }).out = .block ∧
    (Authenticate silentEnv pocketService { deadline := some 1 }).svc = pocketService :=
  ⟨by decide,
   Authenticate_blocks_without_callback silentEnv pocketService { deadline := some 1 }
     none "abc" (by decide) rfl (by decide)⟩

/-- C9: whenever `Authenticate` returns a non-nil error, the returned access token and
username are both empty and the stored access token and username are what they were
before the call. -/
theorem Authenticate_failure_leaves_credentials (env : Env) (s : Service) (ctx : Context)
    (a u e : String) (h : (Authenticate env s ctx).out = .ret (a, u, some e)) :
    a = "" ∧ u = "" ∧ (Authenticate env s ctx).svc.accessToken = s.accessToken ∧
      (Authenticate env s ctx).svc.username = s.username :=
  Authenticate_error env s ctx a u e h


/-- C9 at a concrete input: the remote API rejects the request-token call with 403. -/
theorem Authenticate_failure_leaves_credentials_witness :
    (Authenticate (fixedEnv rejectedResponse) pocketService background).out =
      .ret ("", "", some ("could not make request for request token: " ++
        "unexpected status code 'Forbidden': Invalid consumer key.")) ∧
    (Authenticate (fixedEnv rejectedResponse) pocketService background).svc.accessToken =
      pocketService.accessToken ∧
    (Authenticate (fixedEnv rejectedResponse) pocketService background).svc.username =
      pocketService.username :=
  ⟨by decide,
   (Authenticate_failure_leaves_credentials (fixedEnv rejectedResponse) pocketService
     background "" "" ("could not make request for request token: " ++
        "unexpected status code 'Forbidden': Invalid consumer key.") (by decide)).2.2⟩

/-- A Service whose `userAuthzChan` is nil and whose credentials are not cached never
gets a nil error from `Authenticate`, and the call leaves it as it was: past the
listener the call waits on the nil channel of the Service. -/
theorem Authenticate_nil_chan (env : Env) (s : Service) (ctx : Context)
    (hchan : s.userAuthzChan = none) (hcache : ¬ Cached s) :
    (Authenticate env s ctx).svc = s ∧
      ∀ a u : String, (Authenticate env s ctx).out ≠ .ret (a, u, none) := by
  unfold Cached at hcache
  unfold Authenticate
  rw [if_neg hcache]
  simp only [hchan, chanRecv]
  repeat' split
  all_goals simp

/-- Every Service reachable from `New` has a nil `userAuthzChan` and empty credentials. -/
theorem Reachable_never_authenticated (s : Service) (h : Reachable s) :
    s.userAuthzChan = none ∧ s.accessToken = "" ∧ s.username = "" := by
  induction h with
  | new host consumerKey redirectURI s hnew =>
    unfold New at hnew
    repeat' split at hnew
    all_goals simp at hnew
    subst hnew
    simp
  | authenticate env ctx s _ ih =>
    have hc : ¬ Cached s := by
      unfold Cached
      simp [ih.2.1]
    rw [(Authenticate_nil_chan env s ctx ih.1 hc).1]
    exact ih
  | clear s _ ih => simpa [ClearCredentials] using ih.1

/-- C10: a stored username implies a stored access token in the state `New` builds,
the implication is kept by every call of `Authenticate` (in any environment, from any
state, whatever the outcome) and by `ClearCredentials`, and so it holds in every state
reachable from a successful `New`; and in every state a call of `Authenticate` that
returns a nil error returns a non-empty access token, equal to the stored one, and the
stored username. -/
theorem credentials_invariant :
    (∀ (host consumerKey redirectURI : String) (s : Service),
      New host consumerKey redirectURI = (some s, none) →
        s.accessToken = "" ∧ s.username = "") ∧
    (∀ (env : Env) (s : Service) (ctx : Context),
      (s.username ≠ "" → s.accessToken ≠ "") →
      (Authenticate env s ctx).svc.username ≠ "" →
        (Authenticate env s ctx).svc.accessToken ≠ "") ∧
    (∀ s : Service, (ClearCredentials s).username ≠ "" →
      (ClearCredentials s).accessToken ≠ "") ∧
    (∀ s : Service, Reachable s → s.username ≠ "" → s.accessToken ≠ "") ∧
    (∀ (env : Env) (s : Service) (ctx : Context) (a u : String),
      (Authenticate env s ctx).out = .ret (a, u, none) →
        a ≠ "" ∧ a = (Authenticate env s ctx).svc.accessToken ∧
          u = (Authenticate env s ctx).svc.username) := by
  refine ⟨?_, Authenticate_keeps_invariant, ?_, Reachable_invariant, ?_⟩
  · intro host consumerKey redirectURI s hnew
    unfold New at hnew
    repeat' split at hnew
    all_goals simp at hnew
    subst hnew
    simp
  · intro s
    simp [ClearCredentials]
  · intro env s ctx a u h
    obtain ⟨h1, h2, h3⟩ := Authenticate_success env s ctx a u h
    exact ⟨h1, h2.symm, h3.symm⟩

/-- The invariant of C10 is kept by a call that stores credentials: from a Service with
an empty cache the full flow ends with both fields stored. -/
theorem credentials_invariant_example :
    (Authenticate (approvingEnv "access_token=5678defg&username=pocketuser")
        notifiedService background).svc.username = "pocketuser" ∧
    (Authenticate (approvingEnv "access_token=5678defg&username=pocketuser")
        notifiedService background).svc.accessToken = "5678defg" := by
  decide

/-- C8: `ClearCredentials` empties the stored access token and username and leaves
every other field alone. The next `Authenticate` then does not answer from the cache:
if the request-token request can be issued (non-nil client, URL that parses) it is the
first thing the call does; a nil error is returned only after the whole flow (request
token, listener, wait, exchange); and a call that has done nothing has failed. -/
theorem ClearCredentials_forces_full_flow (s : Service) :
    (ClearCredentials s).accessToken = "" ∧ (ClearCredentials s).username = "" ∧
    (ClearCredentials s).host = s.host ∧ (ClearCredentials s).consumerKey = s.consumerKey ∧
    (ClearCredentials s).redirectURI = s.redirectURI ∧
    (ClearCredentials s).httpCli = s.httpCli ∧
    (ClearCredentials s).userAuthzChan = s.userAuthzChan ∧
    ∀ (env : Env) (ctx : Context),
      (s.httpCli ≠ none → env.parseURL (s.host ++ endpointRequestToken) = none →
        (Authenticate env (ClearCredentials s) ctx).events.head? =
          some (.httpDo (requestTokenCall (ClearCredentials s)
            (WithTimeout env.now ctx defaultAuthCtxTimeout)))) ∧
      (∀ a u : String, (Authenticate env (ClearCredentials s) ctx).out = .ret (a, u, none) →
        ∃ rt : String, (Authenticate env (ClearCredentials s) ctx).events =
          [.httpDo (requestTokenCall (ClearCredentials s)
              (WithTimeout env.now ctx defaultAuthCtxTimeout)),
           .serve,
           .print ("\n\nAwaiting user authorization:\n\t" ++
              authURLTemplate rt s.redirectURI ++ "\n\n"),
           .print "Authorization granted!\n\n",
           .httpDo (accessTokenCall (ClearCredentials s)
              (WithTimeout env.now ctx defaultAuthCtxTimeout) rt)]) ∧
      ((Authenticate env (ClearCredentials s) ctx).events = [] →
        (∃ e : String, (Authenticate env (ClearCredentials s) ctx).out = .ret ("", "", some e)) ∨
        (∃ m : String, (Authenticate env (ClearCredentials s) ctx).out = .panic m)) := by
  have hc : ¬ Cached (ClearCredentials s) := by
    unfold Cached ClearCredentials
    simp
  refine ⟨rfl, rfl, rfl, rfl, rfl, rfl, rfl, ?_⟩
  intro env ctx
  refine ⟨?_, ?_, ?_⟩
  · intro hcli hurl
    exact Authenticate_first_event env (ClearCredentials s) ctx hc hcli hurl
  · intro a u h
    exact Authenticate_full_flow env (ClearCredentials s) ctx a u hc h
  · have hnb := obtainRequestToken_returns_or_panics env (ClearCredentials s)
      (WithTimeout env.now ctx defaultAuthCtxTimeout)
    unfold Cached at hc
    unfold Authenticate
    rw [if_neg hc]
    simp only
    repeat' split
    all_goals simp_all

/-- C8 at a concrete input: a Service with cached credentials, cleared, then asked to
authenticate. -/
theorem ClearCredentials_forces_full_flow_witness :
    Cached authenticatedService ∧
    (Authenticate silentEnv (ClearCredentials authenticatedService) background).events.head? =
      some (.httpDo (requestTokenCall (ClearCredentials authenticatedService)
        (WithTimeout silentEnv.now background defaultAuthCtxTimeout))) :=
  ⟨by decide,
   ((ClearCredentials_forces_full_flow authenticatedService).2.2.2.2.2.2.2
     silentEnv background).1 (by decide) rfl⟩

end authenticator

/-- Either handler, run on a channel that is already closed, panics at its send. -/
theorem handlers_panic_on_closed (c : Chan) (quitChan : Option Chan) (w : ResponseWriter)
    (h : c.closed = true) :
    (authzserver.requestTokenAuthz (some c) w).out = .panic "send on closed channel" ∧
    (callbacksrv.callbackHandler (some c) quitChan w).out = .panic "send on closed channel" := by
  simp [authzserver.requestTokenAuthz, callbacksrv.callbackHandler, chanSend, h]

/-- Either handler, when it returns, leaves its notification channel closed. -/
theorem handlers_close_sink (notifyChan quitChan : Option Chan) (w : ResponseWriter) :
    ((authzserver.requestTokenAuthz notifyChan w).out = .ret () →
      ∃ c : Chan, (authzserver.requestTokenAuthz notifyChan w).userAuthzChan = some c ∧
        c.closed = true) ∧
    ((callbacksrv.callbackHandler notifyChan quitChan w).out = .ret () →
      ∃ c : Chan, (callbacksrv.callbackHandler notifyChan quitChan w).notifyChan = some c ∧
        c.closed = true) := by
  constructor
  · unfold authzserver.requestTokenAuthz
    cases notifyChan with
    | none => simp [chanSend]
    | some c =>
      by_cases hc : c.closed = true
      · simp [chanSend, hc]
      · by_cases hl : c.len < c.cap
        · simp [chanSend, chanClose, hc, hl]
        · simp [chanSend, hc, hl]
  · unfold callbacksrv.callbackHandler
    cases notifyChan with
    | none => simp [chanSend]
    | some c =>
      by_cases hc : c.closed = true
      · simp [chanSend, hc]
      · by_cases hl : c.len < c.cap
        · simp only [chanSend, hc, hl, chanClose]
          cases quitChan with
          | none => simp
          | some q =>
            by_cases hq : q.closed = true
            · simp [hq]
            · by_cases hql : q.len < q.cap
              · simp [hq, hql]
              · simp [hq, hql]
        · simp [chanSend, hc, hl]

/-- C3 (what the code does): on a fresh one-slot channel the first run of either
callback handler sends one notification, closes the channel and returns; the second
run on the same channel panics with "send on closed channel", also when the waiting
side has taken the notification in between. -/
theorem second_callback_panics :
    authzserver.requestTokenAuthz (some (makeChan 1)) authenticator.freshWriter =
      { userAuthzChan := some { cap := 1, len := 1, closed := true }
        w := { status := some 200, body := "Authorization granted. Bye!" }
        out := .ret () } ∧
    (authzserver.requestTokenAuthz (some { cap := 1, len := 1, closed := true })
        authenticator.freshWriter).out = .panic "send on closed channel" ∧
    chanRecv (some { cap := 1, len := 1, closed := true }) =
      .ok (some { cap := 1, len := 0, closed := true }) ∧
    (authzserver.requestTokenAuthz (some { cap := 1, len := 0, closed := true })
        authenticator.freshWriter).out = .panic "send on closed channel" ∧
    callbacksrv.callbackHandler (some (makeChan 1)) (some (makeChan 1))
        authenticator.freshWriter =
      { notifyChan := some { cap := 1, len := 1, closed := true }
        quitChan := some { cap := 1, len := 1, closed := false }
        w := { status := some 200, body := "Authorization Granted. Bye!" }
        out := .ret () } ∧
    (callbacksrv.callbackHandler (some { cap := 1, len := 1, closed := true })
        (some { cap := 1, len := 1, closed := false }) authenticator.freshWriter).out =
      .panic "send on closed channel" := by
  decide


/-! ### Parsing a form encoding -/

theorem QueryUnescape_plain (c : Char) (rest : List Char) (h1 : c ≠ '%') (h2 : c ≠ '+') :
    QueryUnescape (c :: rest) =
      match QueryUnescape rest with
      | .ok t => .ok (c :: t)
      | .error e => .error e := by
  match rest with
  | [] => simp [QueryUnescape, h1, h2]
  | [a] => simp [QueryUnescape, h1, h2]
  | a :: b :: r => simp [QueryUnescape, h1, h2]

theorem QueryUnescape_plus (rest : List Char) :
    QueryUnescape ('+' :: rest) =
      match QueryUnescape rest with
      | .ok t => .ok (' ' :: t)
      | .error e => .error e := by
  match rest with
  | [] => simp [QueryUnescape]
  | [a] => simp [QueryUnescape]
  | a :: b :: r => simp [QueryUnescape]

theorem QueryUnescape_pct (a b : Char) (rest : List Char) (ha : ishex a = true)
    (hb : ishex b = true) :
    QueryUnescape ('%' :: a :: b :: rest) =
      match QueryUnescape rest with
      | .ok t => .ok (Char.ofNat (unhex a * 16 + unhex b) :: t)
      | .error e => .error e := by
  simp [QueryUnescape, ha, hb]

theorem FormText.unescape {plain : Char → Bool} {d e : List Char}
    (hp : ∀ c, plain c = true → c ≠ '%' ∧ c ≠ '+') (h : FormText plain d e) :
    QueryUnescape e = .ok d := by
  induction h with
  | nil => rfl
  | lit c hc _ ih =>
    obtain ⟨h1, h2⟩ := hp c hc
    rw [QueryUnescape_plain c _ h1 h2, ih]
  | plus _ ih => rw [QueryUnescape_plus, ih]
  | pct hi lo hhi hlo _ ih => rw [QueryUnescape_pct hi lo _ hhi hlo, ih]

theorem FormText.not_mem {plain : Char → Bool} {d e : List Char} (x : Char)
    (hx : ∀ c, plain c = true → c ≠ x) (hplus : x ≠ '+') (hpct : x ≠ '%')
    (hhex : ishex x = false) (h : FormText plain d e) : x ∉ e := by
  induction h with
  | nil => simp
  | lit c hc _ ih =>
    have := hx c hc
    simp [ih, Ne.symm this]
  | plus _ ih => simp [ih, hplus]
  | pct hi lo hhi hlo _ ih =>
    have h1 : x ≠ hi := fun hh => by rw [hh, hhi] at hhex; cases hhex
    have h2 : x ≠ lo := fun hh => by rw [hh, hlo] at hhex; cases hhex
    simp [ih, hpct, h1, h2]

theorem cut_append {sep : Char} (a b : List Char) (h : sep ∉ a) :
    cut sep (a ++ (sep :: b)) = (a, b) := by
  induction a with
  | nil => simp [cut]
  | cons c cs ih =>
    have hc : c ≠ sep := fun hh => h (by simp [hh])
    have hcs : sep ∉ cs := fun hh => h (by simp [hh])
    simp [cut, hc, ih hcs]

theorem cut_absent {sep : Char} (a : List Char) (h : sep ∉ a) : cut sep a = (a, []) := by
  induction a with
  | nil => simp [cut]
  | cons c cs ih =>
    have hc : c ≠ sep := fun hh => h (by simp [hh])
    have hcs : sep ∉ cs := fun hh => h (by simp [hh])
    simp [cut, hc, ih hcs]

theorem plainKeyByte_spec (c : Char) (h : plainKeyByte c = true) :
    c ≠ '&' ∧ c ≠ ';' ∧ c ≠ '=' ∧ c ≠ '%' ∧ c ≠ '+' := by
  simpa [plainKeyByte, and_assoc] using h

theorem plainValueByte_spec (c : Char) (h : plainValueByte c = true) :
    c ≠ '&' ∧ c ≠ ';' ∧ c ≠ '%' ∧ c ≠ '+' := by
  simpa [plainValueByte, and_assoc] using h

/-- An encoded `key=value` segment contains neither `&` nor `;`. -/
theorem segment_separators {k v ek ev : List Char} (hk : FormText plainKeyByte k ek)
    (hv : FormText plainValueByte v ev) :
    '&' ∉ ek ++ ('=' :: ev) ∧ ';' ∉ ek ++ ('=' :: ev) ∧ '=' ∉ ek := by
  have k1 := FormText.not_mem '&' (fun c hc => (plainKeyByte_spec c hc).1)
    (by decide) (by decide) (by decide) hk
  have k2 := FormText.not_mem ';' (fun c hc => (plainKeyByte_spec c hc).2.1)
    (by decide) (by decide) (by decide) hk
  have k3 := FormText.not_mem '=' (fun c hc => (plainKeyByte_spec c hc).2.2.1)
    (by decide) (by decide) (by decide) hk
  have v1 := FormText.not_mem '&' (fun c hc => (plainValueByte_spec c hc).1)
    (by decide) (by decide) (by decide) hv
  have v2 := FormText.not_mem ';' (fun c hc => (plainValueByte_spec c hc).2.1)
    (by decide) (by decide) (by decide) hv
  refine ⟨?_, ?_, k3⟩
  · simp [k1, v1]
  · simp [k2, v2]

/-- One loop iteration on an encoded `key=value` segment stores the decoded pair. -/
theorem parseSegment_encoded (k v : String) {ek ev : List Char}
    (hk : FormText plainKeyByte k.data ek) (hv : FormText plainValueByte v.data ev)
    (m : Values) (err : GoError) :
    parseSegment (ek ++ ('=' :: ev)) m err = (valuesAdd m k v, err) := by
  obtain ⟨-, hsemi, heq⟩ := segment_separators hk hv
  have uk := FormText.unescape (fun c hc => (plainKeyByte_spec c hc).2.2.2) hk
  have uv := FormText.unescape (fun c hc => (plainValueByte_spec c hc).2.2) hv
  unfold parseSegment
  rw [if_neg hsemi, if_neg (by simp), cut_append ek ev heq]
  simp only [uk, uv]

theorem cut_snd_length (sep : Char) (q : List Char) (h : q ≠ []) :
    (cut sep q).2.length < q.length := by
  induction q with
  | nil => exact absurd rfl h
  | cons c cs ih =>
    by_cases hc : c = sep
    · simp [cut, hc]
    · cases cs with
      | nil => simp [cut, hc]
      | cons d ds =>
        have := ih (by simp)
        simp only [cut, hc, if_false, List.length_cons] at this ⊢
        omega

theorem parseQueryLoop_fuel_irrelevant (fuel1 : Nat) :
    ∀ (fuel2 : Nat) (query : List Char) (m : Values) (err : GoError),
      query.length ≤ fuel1 → query.length ≤ fuel2 →
      parseQueryLoop fuel1 query m err = parseQueryLoop fuel2 query m err := by
  induction fuel1 with
  | zero =>
    intro fuel2 query m err h _
    have : query = [] := List.length_eq_zero.mp (Nat.le_zero.mp h)
    subst this
    cases fuel2 <;> simp [parseQueryLoop]
  | succ f ih =>
    intro fuel2 query m err h1 h2
    cases query with
    | nil => cases fuel2 <;> simp [parseQueryLoop]
    | cons c cs =>
      cases fuel2 with
      | zero => simp at h2
      | succ g =>
        have hlt := cut_snd_length '&' (c :: cs) (by simp)
        simp only [List.length_cons] at h1 h2 hlt
        rw [parseQueryLoop, parseQueryLoop, if_neg (by simp), if_neg (by simp)]
        exact ih g _ _ _ (by omega) (by omega)

/-- The loop of `parseQuery` terminates: any fuel from the length of the query upwards
gives the result of `ParseQuery`. -/
theorem parseQueryLoop_fuel (fuel : Nat) (query : String) (h : query.data.length ≤ fuel) :
    parseQueryLoop fuel query.data [] none = ParseQuery query :=
  parseQueryLoop_fuel_irrelevant fuel query.data.length query.data [] none h (Nat.le_refl _)

theorem parseQueryLoop_nil (fuel : Nat) (m : Values) (err : GoError) :
    parseQueryLoop fuel [] m err = (m, err) := by
  cases fuel <;> simp [parseQueryLoop]

/-- The loop of `parseQuery` on a well-formed body stores the pairs in order and raises
no error, given fuel for the whole body. -/
theorem parseQueryLoop_encoded {kvs : List (String × String)} {body : List Char}
    (h : FormEncoding kvs body) :
    ∀ (fuel : Nat) (m : Values) (err : GoError), body.length ≤ fuel →
      parseQueryLoop fuel body m err =
        (kvs.foldl (fun acc kv => valuesAdd acc kv.1 kv.2) m, err) := by
  induction h with
  | nil =>
    intro fuel m err _
    simp [parseQueryLoop_nil]
  | single k v ek ev hk hv =>
    intro fuel m err hf
    obtain ⟨hamp, -, -⟩ := segment_separators hk hv
    cases fuel with
    | zero => simp at hf
    | succ f =>
      rw [parseQueryLoop, if_neg (by simp)]
      simp only [cut_absent _ hamp, parseSegment_encoded k v hk hv, parseQueryLoop_nil]
      simp
  | cons k v ek ev kvs rest hk hv _ ih =>
    intro fuel m err hf
    obtain ⟨hamp, -, -⟩ := segment_separators hk hv
    cases fuel with
    | zero => simp at hf
    | succ f =>
      have hcut : cut '&' (ek ++ ('=' :: (ev ++ ('&' :: rest)))) = (ek ++ ('=' :: ev), rest) := by
        have := cut_append (ek ++ ('=' :: ev)) rest hamp
        simpa using this
      rw [parseQueryLoop, if_neg (by simp)]
      simp only [hcut, parseSegment_encoded k v hk hv]
      rw [ih f _ _ (by simp at hf; omega)]
      simp

theorem valuesAdd_lookup (m : Values) (k v key : String) :
    (valuesAdd m k v).lookup key =
      if k = key then some ((m.lookup key).getD [] ++ [v]) else m.lookup key := by
  induction m with
  | nil =>
    by_cases h : k = key
    · subst h
      simp [valuesAdd, List.lookup]
    · have h2 : (key == k) = false := by simpa using Ne.symm h
      simp [valuesAdd, List.lookup, h, h2]
  | cons p rest ih =>
    obtain ⟨k1, vs⟩ := p
    by_cases hk : k1 = k
    · subst hk
      by_cases h : k1 = key
      · subst h
        simp [valuesAdd, List.lookup]
      · have h2 : (key == k1) = false := by simpa using Ne.symm h
        simp [valuesAdd, List.lookup, h, h2]
    · by_cases h : k = key
      · subst h
        have h2 : (k == k1) = false := by simpa using Ne.symm hk
        simp [valuesAdd, List.lookup, hk, h2, ih]
      · by_cases h3 : key = k1
        · subst h3
          simp [valuesAdd, List.lookup, hk, h]
        · have h2 : (key == k1) = false := by simpa using h3
          simp [valuesAdd, List.lookup, hk, h2, ih, h]

theorem foldl_valuesAdd_lookup (kvs : List (String × String)) (m : Values) (key : String) :
    ((kvs.foldl (fun acc kv => valuesAdd acc kv.1 kv.2) m).lookup key).getD [] =
      (m.lookup key).getD [] ++ (kvs.filter (fun kv => kv.1 = key)).map Prod.snd := by
  induction kvs generalizing m with
  | nil => simp
  | cons kv rest ih =>
    rw [List.foldl_cons, ih, valuesAdd_lookup]
    by_cases h : kv.1 = key
    · simp [h]
    · simp [h]

theorem valuesGet_eq_headD (m : Values) (key : String) :
    valuesGet m key = ((m.lookup key).getD []).headD "" := by
  unfold valuesGet
  split
  · rename_i h
    simp [h]
  · rename_i h
    cases hl : m.lookup key with
    | none => rfl
    | some vs =>
      cases vs with
      | nil => rfl
      | cons v r => exact absurd hl (h v r)

theorem filter_headD_eq_formValue (kvs : List (String × String)) (key : String) :
    ((kvs.filter (fun kv => kv.1 = key)).map Prod.snd).headD "" = formValue kvs key := by
  induction kvs with
  | nil => rfl
  | cons kv rest ih =>
    obtain ⟨k, v⟩ := kv
    by_cases h : k = key
    · subst h
      simp [formValue, List.lookup]
    · have h2 : (key == k) = false := by simpa using Ne.symm h
      simpa [formValue, List.lookup, h, h2] using ih

/-- Function `url.ParseQuery` on a well-formed body raises no error, and `Get` on its
result gives each key the value of the first pair with that key. -/
theorem ParseQuery_encoded {kvs : List (String × String)} {body : String}
    (h : FormEncoding kvs body.data) :
    (ParseQuery body).2 = none ∧
      ∀ key : String, valuesGet (ParseQuery body).1 key = formValue kvs key := by
  unfold ParseQuery
  rw [parseQueryLoop_encoded h _ _ _ (Nat.le_refl _)]
  refine ⟨rfl, ?_⟩
  intro key
  rw [valuesGet_eq_headD, foldl_valuesAdd_lookup]
  simpa using filter_headD_eq_formValue kvs key

theorem FormText.ofPlain {plain : Char → Bool} (l : List Char)
    (h : ∀ c ∈ l, plain c = true) : FormText plain l l := by
  induction l with
  | nil => exact FormText.nil
  | cons c cs ih =>
    exact FormText.lit c (h c (by simp)) (ih (fun x hx => h x (by simp [hx])))

namespace authenticator

/-- C5: when the request-token call gets a response with status 200 whose body reads
without error and is a well-formed form encoding of the pairs `kvs`, then
`obtainRequestToken` returns `X` with a nil error if the form gives `code` the non-empty
value `X`, and returns the empty token with the error "missing request token code in api
response" if the form has no `code` key or gives it the empty value. -/
theorem obtainRequestToken_form_contract (env : Env) (s : Service) (ctx : Context)
    (resp : Response) (kvs : List (String × String))
    (hcli : s.httpCli ≠ none)
    (hurl : env.parseURL (s.host ++ endpointRequestToken) = none)
    (hdo : env.roundTrip (requestTokenCall s ctx) = .ok resp)
    (hst : resp.StatusCode = StatusOK) (hread : resp.bodyErr = none)
    (hform : FormEncoding kvs resp.body.data) :
    (∀ X : String, kvs.lookup "code" = some X → X ≠ "" →
      (obtainRequestToken env s ctx).2 = .ret (X, none)) ∧
    (kvs.lookup "code" = none ∨ kvs.lookup "code" = some "" →
      (obtainRequestToken env s ctx).2 =
        .ret ("", some "missing request token code in api response")) := by
  obtain ⟨cli, hcli⟩ := Option.ne_none_iff_exists'.mp hcli
  obtain ⟨hperr, hget⟩ := ParseQuery_encoded hform
  have hdo2 : env.roundTrip
      { ctx := ctx, method := MethodPost, url := s.host ++ endpointRequestToken,
        header := headerSet [] "Content-Type" "application/json; charset=UTF8",
        body := .requestToken { ConsumerKey := s.consumerKey, RedirectURI := s.redirectURI } }
      = .ok resp := hdo
  have hpq : ParseQuery resp.body = ((ParseQuery resp.body).1, none) := Prod.ext rfl hperr
  have hmr : (makeRequest env s ctx
      { ctx := ctx, method := MethodPost, url := s.host ++ endpointRequestToken, header := [],
        body := .requestToken { ConsumerKey := s.consumerKey, RedirectURI := s.redirectURI } }
      StatusOK).out = .ret (some resp, none) := by
    simp [makeRequest, hcli, hdo2, hst]
  have hval : ∀ v : String, formValue kvs "code" = v →
      (obtainRequestToken env s ctx).2 =
        if v = "" then .ret ("", some "missing request token code in api response")
        else .ret (v, none) := by
    intro v hv
    unfold obtainRequestToken
    simp only [NewRequestWithContext, hurl, hmr, hread]
    rw [hpq]
    simp only [hget, hv]
    split <;> rfl
  refine ⟨?_, ?_⟩
  · intro X hX hne
    rw [hval X (by simp [formValue, hX]), if_neg hne]
  · intro h
    have : formValue kvs "code" = "" := by
      rcases h with h | h <;> simp [formValue, h]
    rw [hval "" this, if_pos rfl]

/-- C5 at a concrete input: the body `code=dcba4321&state=a+b%21`. -/
theorem obtainRequestToken_form_contract_witness :
    FormEncoding [("code", "dcba4321"), ("state", "a b!")] codeResponse.body.data ∧
    (obtainRequestToken (fixedEnv codeResponse) pocketService background).2 =
      .ret ("dcba4321", none) :=
  have hform : FormEncoding [("code", "dcba4321"), ("state", "a b!")] codeResponse.body.data :=
    FormEncoding.cons "code" "dcba4321" "code".data "dcba4321".data [("state", "a b!")]
      "state=a+b%21".data
      (FormText.ofPlain _ (by decide)) (FormText.ofPlain _ (by decide))
      (FormEncoding.single "state" "a b!" "state".data "a+b%21".data
        (FormText.ofPlain _ (by decide))
        (FormText.lit 'a' (by decide) (FormText.plus (FormText.lit 'b' (by decide)
          (FormText.pct '2' '1' (by decide) (by decide) FormText.nil)))))
  ⟨hform,
   (obtainRequestToken_form_contract (fixedEnv codeResponse) pocketService background
     codeResponse [("code", "dcba4321"), ("state", "a b!")] (by decide) rfl rfl rfl rfl
     hform).1 "dcba4321" (by decide) (by decide)⟩

/-- C6: when the exchange call gets a response with status 200 whose body reads without
error and is a well-formed form encoding of the pairs `kvs`, then `obtainAccessToken`
returns `(A, U)` with a nil error if the form gives `access_token` the non-empty value
`A` and `username` the value `U`; it returns `(A, "")` with a nil error if the form
gives `access_token` the non-empty value `A` and has no `username` key; and it returns
a nil result with the error "empty access token in API response" if the form has no
`access_token` key or gives it the empty value. -/
theorem obtainAccessToken_form_contract (env : Env) (s : Service) (ctx : Context)
    (requestToken : String) (resp : Response) (kvs : List (String × String))
    (hcli : s.httpCli ≠ none)
    (hurl : env.parseURL (s.host ++ endpointAuthorize) = none)
    (hdo : env.roundTrip (accessTokenCall s ctx requestToken) = .ok resp)
    (hst : resp.StatusCode = StatusOK) (hread : resp.bodyErr = none)
    (hform : FormEncoding kvs resp.body.data) :
    (∀ A U : String, kvs.lookup "access_token" = some A → A ≠ "" →
      kvs.lookup "username" = some U →
      (obtainAccessToken env s ctx requestToken).2 =
        .ret (some { Val := A, Username := U }, none)) ∧
    (∀ A : String, kvs.lookup "access_token" = some A → A ≠ "" →
      kvs.lookup "username" = none →
      (obtainAccessToken env s ctx requestToken).2 =
        .ret (some { Val := A, Username := "" }, none)) ∧
    (kvs.lookup "access_token" = none ∨ kvs.lookup "access_token" = some "" →
      (obtainAccessToken env s ctx requestToken).2 =
        .ret (none, some "empty access token in API response")) := by
  obtain ⟨cli, hcli⟩ := Option.ne_none_iff_exists'.mp hcli
  obtain ⟨hperr, hget⟩ := ParseQuery_encoded hform
  have hdo2 : env.roundTrip
      { ctx := ctx, method := MethodPost, url := s.host ++ endpointAuthorize,
        header := headerSet [] "Content-Type" "application/json; charset=UTF8",
        body := .accessToken { ConsumerKey := s.consumerKey, Code := requestToken } }
      = .ok resp := hdo
  have hpq : ParseQuery resp.body = ((ParseQuery resp.body).1, none) := Prod.ext rfl hperr
  have hmr : (makeRequest env s ctx
      { ctx := ctx, method := MethodPost, url := s.host ++ endpointAuthorize, header := [],
        body := .accessToken { ConsumerKey := s.consumerKey, Code := requestToken } }
      StatusOK).out = .ret (some resp, none) := by
    simp [makeRequest, hcli, hdo2, hst]
  have hval : ∀ a u : String, formValue kvs "access_token" = a →
      formValue kvs "username" = u →
      (obtainAccessToken env s ctx requestToken).2 =
        if a = "" then .ret (none, some "empty access token in API response")
        else .ret (some { Val := a, Username := u }, none) := by
    intro a u ha hu
    unfold obtainAccessToken
    simp only [NewRequestWithContext, hurl, hmr, hread]
    rw [hpq]
    simp only [hget, ha, hu]
    split <;> rfl
  refine ⟨?_, ?_, ?_⟩
  · intro A U hA hne hU
    rw [hval A U (by simp [formValue, hA]) (by simp [formValue, hU]), if_neg hne]
  · intro A hA hne hU
    rw [hval A "" (by simp [formValue, hA]) (by simp [formValue, hU]), if_neg hne]
  · intro h
    have : formValue kvs "access_token" = "" := by
      rcases h with h | h <;> simp [formValue, h]
    rw [hval "" _ this rfl, if_pos rfl]

/-- C6 at a concrete input: the body `access_token=5678defg&username=pocket%40user`. -/
theorem obtainAccessToken_form_contract_witness :
    FormEncoding [("access_token", "5678defg"), ("username", "pocket@user")]
      tokenResponse.body.data ∧
    (obtainAccessToken (fixedEnv tokenResponse) pocketService background "dcba4321").2 =
      .ret (some { Val := "5678defg", Username := "pocket@user" }, none) :=
  have hform : FormEncoding [("access_token", "5678defg"), ("username", "pocket@user")]
      tokenResponse.body.data :=
    FormEncoding.cons "access_token" "5678defg" "access_token".data "5678defg".data
      [("username", "pocket@user")] "username=pocket%40user".data
      (FormText.ofPlain _ (by decide)) (FormText.ofPlain _ (by decide))
      (FormEncoding.single "username" "pocket@user" "username".data "pocket%40user".data
        (FormText.ofPlain _ (by decide))
        (FormText.lit 'p' (by decide) (FormText.lit 'o' (by decide)
          (FormText.lit 'c' (by decide) (FormText.lit 'k' (by decide)
            (FormText.lit 'e' (by decide) (FormText.lit 't' (by decide)
              (FormText.pct '4' '0' (by decide) (by decide)
                (FormText.ofPlain "user".data (by decide))))))))))
  ⟨hform,
   (obtainAccessToken_form_contract (fixedEnv tokenResponse) pocketService background
     "dcba4321" tokenResponse [("access_token", "5678defg"), ("username", "pocket@user")]
     (by decide) rfl rfl rfl rfl hform).1 "5678defg" "pocket@user" (by decide) (by decide)
     (by decide)⟩

end authenticator

end PocketOAuth2
